import Mathlib

/-!
Verification development for the in-memory object model of a PowerPC binary
decompilation toolkit (`src/obj/mod.rs`, `src/obj/relocations.rs`).

The Rust source is embedded shallowly:
* `u32` / `u64` machine integers become `Nat` with explicit `% 2^32` where the
  source truncates (`as u32`);
* `BTreeMap` becomes a key-sorted association list (`insertA` overwrites an
  existing key, like `BTreeMap::insert`);
* fallible code (`anyhow::Result`, `&mut self` receivers) becomes
  `Except (SplitError × ObjInfo) ObjInfo`: the error case carries the state as
  it was left when the error was raised, matching Rust's `&mut self` semantics
  where mutations made before a `bail!` persist.

The leaf modules `splits.rs`, `sections.rs` and `symbols.rs` are not part of
the available sources; their operations (`ObjSplits::for_unit`,
`ObjSplits::for_range`, `ObjSplits::push`, `ObjSplits::remove`,
`ObjSymbols::add`) are modelled from the specification and are marked
`Modelled from the spec:` in their doc comments.
-/

set_option maxRecDepth 10000

deriving instance DecidableEq for Except

/-- Relocation kinds: the seven PowerPC patch encodings of
`src/obj/relocations.rs` (`enum ObjRelocKind`). -/
inductive ObjRelocKind where
  | Absolute
  | PpcAddr16Hi
  | PpcAddr16Ha
  | PpcAddr16Lo
  | PpcRel24
  | PpcRel14
  | PpcEmbSda21
deriving DecidableEq

/-- Short canonical code emitted by `Serialize for ObjRelocKind`. -/
def serializeRelocKind : ObjRelocKind → String
  | .Absolute => "abs"
  | .PpcAddr16Hi => "hi"
  | .PpcAddr16Ha => "ha"
  | .PpcAddr16Lo => "l"
  | .PpcRel24 => "rel24"
  | .PpcRel14 => "rel14"
  | .PpcEmbSda21 => "sda21"

/-- Historical verbose spelling accepted by `Deserialize for ObjRelocKind`
(the first pattern of each match arm in the source). -/
def verboseRelocKindName : ObjRelocKind → String
  | .Absolute => "Absolute"
  | .PpcAddr16Hi => "PpcAddr16Hi"
  | .PpcAddr16Ha => "PpcAddr16Ha"
  | .PpcAddr16Lo => "PpcAddr16Lo"
  | .PpcRel24 => "PpcRel24"
  | .PpcRel14 => "PpcRel14"
  | .PpcEmbSda21 => "PpcEmbSda21"

/-- Error produced by `serde::de::Error::unknown_variant`: the offending
string together with the list of expected variants. -/
inductive RelocKindDeError where
  | unknownVariant (s : String) (valid : List String)
deriving DecidableEq

/-- The seven valid short codes, exactly as listed in the source's
`unknown_variant` call. -/
def relocKindValidCodes : List String :=
  ["abs", "hi", "ha", "l", "rel24", "rel14", "sda21"]

/-- Embedding of `Deserialize for ObjRelocKind`: each kind is recognized under
its verbose historical name or its short code; anything else fails with an
`unknown_variant` error listing the seven short codes. -/
def deserializeRelocKind (s : String) : Except RelocKindDeError ObjRelocKind :=
  if s = "Absolute" ∨ s = "abs" then .ok .Absolute
  else if s = "PpcAddr16Hi" ∨ s = "hi" then .ok .PpcAddr16Hi
  else if s = "PpcAddr16Ha" ∨ s = "ha" then .ok .PpcAddr16Ha
  else if s = "PpcAddr16Lo" ∨ s = "l" then .ok .PpcAddr16Lo
  else if s = "PpcRel24" ∨ s = "rel24" then .ok .PpcRel24
  else if s = "PpcRel14" ∨ s = "rel14" then .ok .PpcRel14
  else if s = "PpcEmbSda21" ∨ s = "sda21" then .ok .PpcEmbSda21
  else .error (.unknownVariant s relocKindValidCodes)

/-- List of all fourteen recognized spellings (used to state the
failure case of deserialization). -/
def relocKindAllSpellings : List String :=
  ["Absolute", "abs", "PpcAddr16Hi", "hi", "PpcAddr16Ha", "ha",
   "PpcAddr16Lo", "l", "PpcRel24", "rel24", "PpcRel14", "rel14",
   "PpcEmbSda21", "sda21"]

/-- Embedding of `struct ObjReloc` (`kind`, `target_symbol`, `addend`,
`module`). -/
structure ObjReloc where
  kind : ObjRelocKind
  targetSymbol : Nat
  addend : Int
  module : Option Nat
deriving DecidableEq

/-- The Rust `address & !3` on a `u32`: clear the low two bits, i.e. round
down to the containing 4-byte word. For `a < 2^32` this equals `a / 4 * 4`. -/
def mask32 (a : Nat) : Nat := a / 4 * 4

/-- Association-list lookup, modelling `BTreeMap::get`. -/
def lookupA {α : Type} (k : Nat) : List (Nat × α) → Option α
  | [] => none
  | (k', v) :: rest => if k = k' then some v else lookupA k rest

/-- Key-sorted association-list insert, modelling `BTreeMap::insert`:
overwrites an entry with an equal key, otherwise inserts keeping keys in
ascending order. -/
def insertA {α : Type} (k : Nat) (v : α) : List (Nat × α) → List (Nat × α)
  | [] => [(k, v)]
  | (k', v') :: rest =>
    if k < k' then (k, v) :: (k', v') :: rest
    else if k = k' then (k, v) :: rest
    else (k', v') :: insertA k v rest

/-- Embedding of `struct ObjRelocations`: an address-keyed table of
relocations for one section (`BTreeMap<u32, ObjReloc>`). -/
structure ObjRelocations where
  relocations : List (Nat × ObjReloc)
deriving DecidableEq

/-- Embedding of `struct ExistingRelocationError` (the colliding address and
the pre-existing entry). -/
structure ExistingRelocationError where
  address : Nat
  value : ObjReloc
deriving DecidableEq

/-- Embedding of `ObjRelocations::insert`: the address is masked with `& !3`;
if an entry already exists at the masked address the call fails exposing it,
otherwise the relocation is stored at the masked address. -/
def ObjRelocations.insert (m : ObjRelocations) (address : Nat) (reloc : ObjReloc) :
    Except ExistingRelocationError ObjRelocations :=
  let address := mask32 address
  match lookupA address m.relocations with
  | some existing => .error ⟨address, existing⟩
  | none => .ok ⟨insertA address reloc m.relocations⟩

/-- Embedding of `ObjRelocations::new`: bulk-build from a list of entries,
masking each address and failing at the first duplicate masked address. -/
def ObjRelocations.new (entries : List (Nat × ObjReloc)) :
    Except ExistingRelocationError ObjRelocations :=
  entries.foldlM (fun m (p : Nat × ObjReloc) => m.insert p.1 p.2) ⟨[]⟩

/-- Embedding of `ObjRelocations::replace`: `BTreeMap::insert` at the address
exactly as given — the source performs no masking here. -/
def ObjRelocations.replace (m : ObjRelocations) (address : Nat) (reloc : ObjReloc) :
    ObjRelocations :=
  ⟨insertA address reloc m.relocations⟩

/-- Embedding of `ObjRelocations::at` (and of the lookup performed by
`at_mut`): `BTreeMap::get` at the address exactly as given — no masking.
Named `rel_at` because `at` is a Lean keyword. -/
def ObjRelocations.rel_at (m : ObjRelocations) (address : Nat) : Option ObjReloc :=
  lookupA address m.relocations

/-- Embedding of `ObjRelocations::contains`: `BTreeMap::contains_key` at the
address exactly as given — no masking. -/
def ObjRelocations.contains (m : ObjRelocations) (address : Nat) : Bool :=
  (lookupA address m.relocations).isSome

/-- Embedding of `struct ObjSplit`: a provisional attribution of
`[start, end)` to a translation unit; the start address is the map key, so it
is not a field. `end` is a Lean keyword, hence `endAddr`. -/
structure ObjSplit where
  unit : String
  endAddr : Nat
  align : Option Nat
  common : Bool
  autogenerated : Bool
  skip : Bool
  rename : Option String
deriving DecidableEq

/-- Modelled from the spec: `ObjSplits` (`splits.rs` is not among the
available sources) is "a sorted index of disjoint address sub-ranges
attributed to translation units" keyed by start address; here a key-sorted
association list. `ObjSplits::for_unit` locates the split owned by the given
unit ("if the section already has a split owned by `split.unit`"); modelled
as the first (lowest-address) split attributed to the unit. -/
def forUnit (splits : List (Nat × ObjSplit)) (unit : String) : Option (Nat × ObjSplit) :=
  splits.find? (fun p => p.2.unit == unit)

/-- Modelled from the spec: whether the split `p` (range `[p.1, p.2.endAddr)`,
where `endAddr = 0` means open-ended, "extends to section end") intersects
the half-open range `[lo, hi)`. -/
def splitIntersects (lo hi : Nat) (p : Nat × ObjSplit) : Bool :=
  decide (p.1 < hi) && (p.2.endAddr == 0 || decide (lo < p.2.endAddr))

/-- Modelled from the spec: `ObjSplits::for_range` — "scan every split in the
section whose range intersects `[new_start, new_end)`", in ascending address
order (the list is key-sorted and `filter` preserves order). -/
def forRange (splits : List (Nat × ObjSplit)) (lo hi : Nat) : List (Nat × ObjSplit) :=
  splits.filter (splitIntersects lo hi)

/-- Modelled from the spec: `ObjSplits::remove` applied to every address in
the `to_remove` set. -/
def removeKeys (keys : List Nat) (splits : List (Nat × ObjSplit)) :
    List (Nat × ObjSplit) :=
  splits.filter (fun p => !(keys.contains p.1))

/-- Modelled from the spec: `ObjSplits::push` — insert a split at its start
address ("insert `split` directly at `address`"). -/
def pushSplit (splits : List (Nat × ObjSplit)) (address : Nat) (split : ObjSplit) :
    List (Nat × ObjSplit) :=
  insertA address split splits

/-- The rename step of `ObjInfo::add_split`: every split still carrying a
unit name collected in `to_rename` has its unit field rewritten to the
incoming unit's name. -/
def renameSplits (toRename : List String) (newUnit : String)
    (splits : List (Nat × ObjSplit)) : List (Nat × ObjSplit) :=
  splits.map (fun p =>
    if toRename.contains p.2.unit then (p.1, { p.2 with unit := newUnit }) else p)

/-- Errors produced by `ObjInfo::add_split`, as structured values carrying the
data interpolated into the source's messages. `fuelExhausted` is an artifact
of the fuel-indexed embedding of the source's unbounded recursion. -/
inductive SplitError where
  | invalidSection (index : Nat)
  | splitOutOfBounds (unit : String) (start stop sectionStart sectionEnd : Nat)
  | alignmentConflict (unit : String) (a b : Nat)
  | commonFlagConflict (unit : String) (existingCommon newCommon : Bool)
  | overlappingSplit (unit : String) (newStart newEnd : Nat)
      (existingUnit : String) (existingStart existingEnd : Nat)
  | fuelExhausted
deriving DecidableEq

/-- The alignment-resolution match of `add_split`: both set and equal keeps
the value, both set and different is a conflict (reported as
`(incoming, existing)`, the order of the source's message), one set takes
that one, neither set stays unset. -/
def mergeAlignments : Option Nat → Option Nat → Except (Nat × Nat) (Option Nat)
  | some a, some b => if a = b then .ok (some a) else .error (a, b)
  | some a, none => .ok (some a)
  | none, some b => .ok (some b)
  | none, none => .ok none

/-- Result of the overlap scan loop in `add_split`'s merge path. -/
inductive ScanResult where
  | silentDrop
  | conflict (err : SplitError)
  | passed (toRemove : List Nat) (toRename : List String)
deriving DecidableEq

/-- The overlap scan loop of `add_split`: for each split intersecting the
union range, in ascending address order: if the incoming split is
autogenerated and the scanned one is not, the whole call becomes a no-op
success (`silentDrop`); otherwise the scanned split must be autogenerated or
owned by the incoming unit, else the call fails with `OverlappingSplit`;
surviving scans record the address for removal and, for foreign units, the
unit name for renaming. -/
def scanOverlaps (split : ObjSplit) (newStart newEnd : Nat) :
    List (Nat × ObjSplit) → ScanResult
  | [] => .passed [] []
  | (existingAddr, existingSplit) :: rest =>
    if split.autogenerated && !existingSplit.autogenerated then .silentDrop
    else if !(existingSplit.autogenerated || existingSplit.unit == split.unit) then
      .conflict (.overlappingSplit split.unit newStart newEnd
        existingSplit.unit existingAddr existingSplit.endAddr)
    else
      match scanOverlaps split newStart newEnd rest with
      | .silentDrop => .silentDrop
      | .conflict e => .conflict e
      | .passed toRemove toRename =>
        .passed (existingAddr :: toRemove)
          (if existingSplit.unit == split.unit then toRename
           else existingSplit.unit :: toRename)

/-- Embedding of `enum ObjSectionKind` (`sections.rs` is not among the
available sources; variants from the spec: Code, Data, Bss, ...). -/
inductive ObjSectionKind where
  | Code
  | Data
  | ReadOnlyData
  | Bss
deriving DecidableEq

/-- Embedding of `struct ObjSection`: the fields the modelled operations
touch — name, kind, address range `[address, address+size)` (`u64` in the
source), its split index and its relocation table. -/
structure ObjSection where
  name : String
  kind : ObjSectionKind
  address : Nat
  size : Nat
  splits : List (Nat × ObjSplit)
  relocations : ObjRelocations
deriving DecidableEq

/-- Embedding of `struct ObjUnit` (translation unit of `link_order`). -/
structure ObjUnit where
  name : String
  autogenerated : Bool
  commentVersion : Option Nat
deriving DecidableEq

/-- Modelled from the spec: `ObjSymbol` (`symbols.rs` is not among the
available sources) with the fields the modelled operations read: name,
address (`u64`), size, and the "common" flag. -/
structure ObjSymbol where
  name : String
  address : Nat
  size : Nat
  common : Bool
deriving DecidableEq

/-- Embedding of `enum ObjKind`. -/
inductive ObjKind where
  | Executable
  | Relocatable
deriving DecidableEq

/-- Embedding of `struct ObjInfo`: the aggregate root. Out-of-scope leaf data
(`mw_comment`, `split_meta`, blocked address ranges, `known_functions`,
`unresolved_relocations`) is omitted; none of the modelled operations touch
it. -/
structure ObjInfo where
  kind : ObjKind
  name : String
  symbols : List ObjSymbol
  sections : List ObjSection
  entry : Option Nat
  sda2_base : Option Nat
  sda_base : Option Nat
  stack_address : Option Nat
  stack_end : Option Nat
  db_stack_addr : Option Nat
  arena_lo : Option Nat
  arena_hi : Option Nat
  link_order : List ObjUnit
  module_id : Nat
deriving DecidableEq

/-- Modelled from the spec: `ObjSymbols::add` (`symbols.rs` is not among the
available sources) — insertion semantics are delegated; modelled as appending
the symbol and returning its fresh index. The `replace` policy does not
affect the aggregate fields the claims are about. -/
def symbolsAdd (o : ObjInfo) (s : ObjSymbol) (replace : Bool) : ObjInfo × Nat :=
  ({ o with symbols := o.symbols ++ [s] }, o.symbols.length)

/-- Embedding of `ObjInfo::add_symbol`: if the symbol's name is one of the
seven reserved linker names, the matching aggregate field is set to the
symbol's address truncated to 32 bits (`as u32`), then the symbol is added to
the symbol table. -/
def add_symbol (o : ObjInfo) (in_symbol : ObjSymbol) (replace : Bool) : ObjInfo × Nat :=
  let o' :=
    if in_symbol.name = "_SDA_BASE_" then
      { o with sda_base := some (in_symbol.address % 2 ^ 32) }
    else if in_symbol.name = "_SDA2_BASE_" then
      { o with sda2_base := some (in_symbol.address % 2 ^ 32) }
    else if in_symbol.name = "_stack_addr" then
      { o with stack_address := some (in_symbol.address % 2 ^ 32) }
    else if in_symbol.name = "_stack_end" then
      { o with stack_end := some (in_symbol.address % 2 ^ 32) }
    else if in_symbol.name = "_db_stack_addr" then
      { o with db_stack_addr := some (in_symbol.address % 2 ^ 32) }
    else if in_symbol.name = "__ArenaLo" then
      { o with arena_lo := some (in_symbol.address % 2 ^ 32) }
    else if in_symbol.name = "__ArenaHi" then
      { o with arena_hi := some (in_symbol.address % 2 ^ 32) }
    else o
  symbolsAdd o' in_symbol replace

/-- Embedding of `ObjInfo::add_split`. The first argument is recursion fuel:
the source recurses without a structural bound, so the embedding charges one
fuel per invocation and reports `fuelExhausted` when it runs out. The error
case carries the state as mutated so far (Rust `&mut self`: mutations made
before a failing recursive call persist).

Control flow, in source order: resolve the section (else `InvalidSection`);
check `split.end == 0 || split.end <= section_end` (else `SplitOutOfBounds`);
if the unit already has a split in the section, compute the union range,
resolve alignment (else `AlignmentConflict`), require equal common flags
(else `CommonFlagConflict`), AND the autogenerated flags; if the union equals
the existing range, no-op success; otherwise scan intersecting splits
(`silentDrop` → no-op success, conflict → `OverlappingSplit`), remove the
collected addresses, rename collected foreign units across every section,
and recurse with the merged split (`skip = false`, `rename = None`). With no
existing split for the unit, push directly. -/
def addSplit : Nat → ObjInfo → Nat → Nat → ObjSplit →
    Except (SplitError × ObjInfo) ObjInfo
  | 0, o, _, _, _ => .error (.fuelExhausted, o)
  | fuel + 1, o, sectionIndex, address, split =>
    match o.sections[sectionIndex]? with
    | none => .error (.invalidSection sectionIndex, o)
    | some sec =>
      let sectionStart := sec.address % 2 ^ 32
      let sectionEnd := (sec.address + sec.size) % 2 ^ 32
      if split.endAddr = 0 ∨ split.endAddr ≤ sectionEnd then
        match forUnit sec.splits split.unit with
        | some (existingAddr, existingSplit) =>
          let newStart := min existingAddr address
          let newEnd := max existingSplit.endAddr split.endAddr
          match mergeAlignments split.align existingSplit.align with
          | .error (a, b) => .error (.alignmentConflict split.unit a b, o)
          | .ok newAlign =>
            if split.common = existingSplit.common then
              let newAutogenerated := split.autogenerated && existingSplit.autogenerated
              if newStart ≥ existingAddr ∧ newEnd ≤ existingSplit.endAddr then
                .ok o
              else
                match scanOverlaps split newStart newEnd
                    (forRange sec.splits newStart newEnd) with
                | .silentDrop => .ok o
                | .conflict e => .error (e, o)
                | .passed toRemove toRename =>
                  let sec' := { sec with splits := removeKeys toRemove sec.splits }
                  let o' := { o with sections := o.sections.set sectionIndex sec' }
                  let o'' := { o' with sections := o'.sections.map (fun s =>
                    { s with splits := renameSplits toRename split.unit s.splits }) }
                  addSplit fuel o'' sectionIndex newStart
                    { unit := split.unit, endAddr := newEnd, align := newAlign,
                      common := split.common, autogenerated := newAutogenerated,
                      skip := false, rename := none }
            else
              .error (.commonFlagConflict split.unit existingSplit.common split.common, o)
        | none =>
          let sec' := { sec with splits := pushSplit sec.splits address split }
          .ok { o with sections := o.sections.set sectionIndex sec' }
      else
        .error (.splitOutOfBounds split.unit address split.endAddr sectionStart sectionEnd, o)

/-- The validation phase of `add_split`: exactly the checks the source
performs before its first mutation, in source order. Returns the error the
call would fail with, or `none` when validation passes (the call proceeds to
the no-op, mutation, or direct-push stage). -/
def addSplitPrecheck (o : ObjInfo) (sectionIndex address : Nat) (split : ObjSplit) :
    Option SplitError :=
  match o.sections[sectionIndex]? with
  | none => some (.invalidSection sectionIndex)
  | some sec =>
    let sectionStart := sec.address % 2 ^ 32
    let sectionEnd := (sec.address + sec.size) % 2 ^ 32
    if split.endAddr = 0 ∨ split.endAddr ≤ sectionEnd then
      match forUnit sec.splits split.unit with
      | some (existingAddr, existingSplit) =>
        let newStart := min existingAddr address
        let newEnd := max existingSplit.endAddr split.endAddr
        match mergeAlignments split.align existingSplit.align with
        | .error (a, b) => some (.alignmentConflict split.unit a b)
        | .ok _ =>
          if split.common = existingSplit.common then
            if newStart ≥ existingAddr ∧ newEnd ≤ existingSplit.endAddr then none
            else
              match scanOverlaps split newStart newEnd
                  (forRange sec.splits newStart newEnd) with
              | .conflict e => some e
              | _ => none
          else
            some (.commonFlagConflict split.unit existingSplit.common split.common)
      | none => none
    else
      some (.splitOutOfBounds split.unit address split.endAddr sectionStart sectionEnd)

/-- State component of an `add_split` outcome (the object as the call left
it, whether it succeeded or failed). -/
def resState : Except (SplitError × ObjInfo) ObjInfo → ObjInfo
  | .ok o => o
  | .error (_, o) => o

/-- Error component of an `add_split` outcome. -/
def resErr : Except (SplitError × ObjInfo) ObjInfo → Option SplitError
  | .ok _ => none
  | .error (e, _) => some e

/-- Whether address `x` is attributed to `unit` by some split of the given
table: some entry `(a, s)` has `s.unit = unit` and `a ≤ x < s.endAddr`. -/
def coveredBy (splits : List (Nat × ObjSplit)) (unit : String) (x : Nat) : Bool :=
  splits.any (fun p => p.2.unit == unit && decide (p.1 ≤ x) && decide (x < p.2.endAddr))

/-- Whether address `x` in section `i` of `o` is attributed to `unit`. -/
def coveredInfo (o : ObjInfo) (i : Nat) (unit : String) (x : Nat) : Bool :=
  match o.sections[i]? with
  | some sec => coveredBy sec.splits unit x
  | none => false

/-- Every split of the table is bounded and nonempty: its start address lies
strictly below its (nonzero) end address. -/
def splitsWF (splits : List (Nat × ObjSplit)) : Bool :=
  splits.all (fun p => decide (p.1 < p.2.endAddr))

/-- No two entries of the table are attributed to the same unit. -/
def unitsDistinct : List (Nat × ObjSplit) → Bool
  | [] => true
  | p :: rest => rest.all (fun q => !(q.2.unit == p.2.unit)) && unitsDistinct rest

/-- A fresh code section of the given name and size at address 0. -/
def mkSec (nm : String) (sz : Nat) : ObjSection :=
  ⟨nm, .Code, 0, sz, [], ⟨[]⟩⟩

/-- A fresh executable object with two empty sections `A` (index 0) and `B`
(index 1), each `[0, 0x1000)`, as produced by `ObjInfo::new`. -/
def cexObj0 : ObjInfo :=
  ⟨.Executable, "main", [], [mkSec "A" 0x1000, mkSec "B" 0x1000], none,
   none, none, none, none, none, none, none, [], 0⟩

/-- A split with the given unit, end address, alignment and autogenerated
flag (common and skip cleared, no rename hint). -/
def mkSplit (u : String) (e : Nat) (al : Option Nat) (auto : Bool) : ObjSplit :=
  ⟨u, e, al, false, auto, false, none⟩

/-- C2 scenario, first call: unit `U1` claims `[0x0, 0x10)` of section 0,
not autogenerated. -/
def c2call1 : Except (SplitError × ObjInfo) ObjInfo :=
  addSplit 9 cexObj0 0 0x0 (mkSplit "U1" 0x10 none false)

/-- C2 scenario, second call: unit `U2` claims the overlapping `[0x8, 0x18)`
of section 0, not autogenerated. -/
def c2call2 : Except (SplitError × ObjInfo) ObjInfo :=
  addSplit 9 (resState c2call1) 0 0x8 (mkSplit "U2" 0x18 none false)

/-- C3 scenario, first call: unit `V` claims `[0x0, 0x10)`, confirmed (not
autogenerated). -/
def c3call1 : Except (SplitError × ObjInfo) ObjInfo :=
  addSplit 9 cexObj0 0 0x0 (mkSplit "V" 0x10 none false)

/-- C3 scenario, second call: an autogenerated split of unit `U` overlapping
`V`'s confirmed split. -/
def c3call2 : Except (SplitError × ObjInfo) ObjInfo :=
  addSplit 9 (resState c3call1) 0 0x8 (mkSplit "U" 0x18 none true)

/-- Rename-duplication trace, call 1: `U` claims `[0x100, 0x110)` of
section 1. -/
def trace1 : Except (SplitError × ObjInfo) ObjInfo :=
  addSplit 9 cexObj0 1 0x100 (mkSplit "U" 0x110 none false)

/-- Rename-duplication trace, call 2: `W` claims `[0x200, 0x210)` of
section 1 with alignment 8. -/
def trace2 : Except (SplitError × ObjInfo) ObjInfo :=
  addSplit 9 (resState trace1) 1 0x200 (mkSplit "W" 0x210 (some 8) false)

/-- Rename-duplication trace, call 3: an autogenerated `W` split
`[0x10, 0x20)` in section 0. -/
def trace3 : Except (SplitError × ObjInfo) ObjInfo :=
  addSplit 9 (resState trace2) 0 0x10 (mkSplit "W" 0x20 none true)

/-- Rename-duplication trace, call 4: `U` claims `[0x0, 0x8)` of section 0. -/
def trace4 : Except (SplitError × ObjInfo) ObjInfo :=
  addSplit 9 (resState trace3) 0 0x0 (mkSplit "U" 0x8 none false)

/-- Rename-duplication trace, call 5: `U` extends to `[0x8, 0x18)` in
section 0; the merge swallows `W`'s autogenerated split there and renames
`W`'s section-1 split to `U`, leaving section 1 with two `U` splits. -/
def trace5 : Except (SplitError × ObjInfo) ObjInfo :=
  addSplit 9 (resState trace4) 0 0x8 (mkSplit "U" 0x18 none false)

/-- C1 scenario, failing call: merging `U` `[0x108, 0x120)` with alignment 4
into section 1, where `U` now owns both `[0x100, 0x110)` (alignment unset)
and the renamed `[0x200, 0x210)` (alignment 8): the recursive merge call
fails with an alignment conflict after the outer call already removed the
split at `0x100`. -/
def c1call6 : Except (SplitError × ObjInfo) ObjInfo :=
  addSplit 9 (resState trace5) 1 0x108 (mkSplit "U" 0x120 (some 4) false)

/-- C6 scenario, failing call: merging `U` `[0x108, 0x205)` into section 1
(same state as C1's scenario, alignment unset): the double merge replaces
both `U` splits by `[0x100, 0x205)`, losing `U`'s previously covered
`[0x205, 0x210)`. -/
def c6call6 : Except (SplitError × ObjInfo) ObjInfo :=
  addSplit 9 (resState trace5) 1 0x108 (mkSplit "U" 0x205 none false)

/-- C5 scenario, setup call: `U` claims the open-ended `[0x100, 0)` (end 0 =
"extends to section end") in section 0. -/
def c5setup : Except (SplitError × ObjInfo) ObjInfo :=
  addSplit 2 cexObj0 0 0x100 (mkSplit "U" 0 none false)

/-- The state holding `U`'s open-ended split at `0x100`. -/
def c5state : ObjInfo := resState c5setup

/-- C5 scenario, diverging input: merging `U` `[0x0, 0x50)` below the
open-ended split. The union range `[0, max 0 0x50) = [0, 0x50)` does not
reach the existing split at `0x100`, so nothing is removed and the recursive
call repeats with identical arguments forever. -/
def c5split : ObjSplit := mkSplit "U" 0x50 none false

/-- C7 scenario: `U` owns `[0x0, 0x10)` with alignment 4. -/
def c7call1 : Except (SplitError × ObjInfo) ObjInfo :=
  addSplit 9 cexObj0 0 0x0 (mkSplit "U" 0x10 (some 4) false)

/-- C7 scenario, failing call: re-adding the identical range `[0x0, 0x10)`
for `U` but with alignment 8. -/
def c7call2 : Except (SplitError × ObjInfo) ObjInfo :=
  addSplit 9 (resState c7call1) 0 0x0 (mkSplit "U" 0x10 (some 8) false)

/-- A throwaway relocation record. -/
def cexReloc : ObjReloc := ⟨.Absolute, 0, 0, none⟩

/-- Success extractor for relocation-table operations (the empty table on
error; the C4 scenario's insert succeeds). -/
def relOkOf : Except ExistingRelocationError ObjRelocations → ObjRelocations
  | .ok m => m
  | .error _ => ⟨[]⟩

/-- C4 scenario: the table after inserting a relocation at the unaligned
address `0x1001` into an empty table. -/
def c4table : ObjRelocations := relOkOf (ObjRelocations.insert ⟨[]⟩ 0x1001 cexReloc)

/-- C9 scenario: a `_SDA_BASE_` symbol whose 64-bit address `2^32 + 5`
truncates to 5. -/
def c9sym1 : ObjSymbol := ⟨"_SDA_BASE_", 2 ^ 32 + 5, 0, false⟩

/-- C9 scenario: a later `_SDA_BASE_` symbol at address 7. -/
def c9sym2 : ObjSymbol := ⟨"_SDA_BASE_", 7, 0, false⟩

/-- C9 scenario: a symbol with a non-reserved name. -/
def c9sym3 : ObjSymbol := ⟨"foo", 1, 0, false⟩

/-- C2 witness state, section 0: `U1` owns `[0x0, 0x10)` and `U2` owns
`[0x20, 0x28)`, both confirmed. -/
def c2wSec : ObjSection :=
  ⟨"A", .Code, 0, 0x1000,
   [(0x0, mkSplit "U1" 0x10 none false), (0x20, mkSplit "U2" 0x28 none false)], ⟨[]⟩⟩

/-- C2 witness object. -/
def c2wObj : ObjInfo := { cexObj0 with sections := [c2wSec, mkSec "B" 0x1000] }

/-- C3 witness state, section 0: `U` owns the autogenerated `[0x0, 0x8)` and
`V` owns the confirmed `[0x10, 0x20)`. -/
def c3wSec : ObjSection :=
  ⟨"A", .Code, 0, 0x1000,
   [(0x0, mkSplit "U" 0x8 none true), (0x10, mkSplit "V" 0x20 none false)], ⟨[]⟩⟩

/-- C3 witness object. -/
def c3wObj : ObjInfo := { cexObj0 with sections := [c3wSec, mkSec "B" 0x1000] }

/-- C7 witness state, section 0: `U` owns `[0x0, 0x10)` with alignment 4. -/
def c7wSec : ObjSection :=
  ⟨"A", .Code, 0, 0x1000, [(0x0, mkSplit "U" 0x10 (some 4) false)], ⟨[]⟩⟩

/-- C7 witness object. -/
def c7wObj : ObjInfo := { cexObj0 with sections := [c7wSec, mkSec "B" 0x1000] }

/-- The split stored at start address `k` in section `i` of `o`, if any. -/
def sectionSplitAt (o : ObjInfo) (i k : Nat) : Option ObjSplit :=
  match o.sections[i]? with
  | some sec => lookupA k sec.splits
  | none => none

/-- Association-list lookup of a freshly inserted key yields the inserted
value. -/
theorem lookupA_insertA_self {α : Type} (k : Nat) (v : α) (l : List (Nat × α)) :
    lookupA k (insertA k v l) = some v := by
  induction l with
  | nil => simp [insertA, lookupA]
  | cons p rest ih =>
    obtain ⟨k', v'⟩ := p
    by_cases h1 : k < k'
    · simp [insertA, h1, lookupA]
    · by_cases h2 : k = k'
      · simp [insertA, h1, h2, lookupA]
      · simp [insertA, h1, h2, lookupA, ih]

/-- Association-list insertion does not affect lookups at other keys. -/
theorem lookupA_insertA_ne {α : Type} (k k' : Nat) (v : α) (l : List (Nat × α))
    (h : k' ≠ k) : lookupA k' (insertA k v l) = lookupA k' l := by
  induction l with
  | nil => simp [insertA, lookupA, h]
  | cons p rest ih =>
    obtain ⟨k₀, v₀⟩ := p
    by_cases h1 : k < k₀
    · simp [insertA, h1, lookupA, h]
    · by_cases h2 : k = k₀
      · subst h2
        simp [insertA, h1, lookupA, h]
      · by_cases h3 : k' = k₀ <;> simp [insertA, h1, h2, lookupA, h3, ih]

/-- Masking to the 4-byte boundary is idempotent. -/
theorem mask32_idem (a : Nat) : mask32 (mask32 a) = mask32 a := by
  unfold mask32; omega

/-- C2 (counterexample): two `add_split` calls on section 0 attribute the
overlapping ranges `[0x0, 0x10)` and `[0x8, 0x18)` to the distinct
non-autogenerated units `U1` and `U2`; the first succeeds and — contrary to
the claim — the second also succeeds, leaving both units covering `0x8`:
the direct-insert path performs no overlap check. -/
theorem c2_counterexample :
    resErr c2call1 = none ∧ resErr c2call2 = none ∧
    coveredInfo (resState c2call2) 0 "U1" 0x8 = true ∧
    coveredInfo (resState c2call2) 0 "U2" 0x8 = true := by decide

/-- C3 (counterexample): an autogenerated `U` split `[0x8, 0x18)` overlapping
the confirmed (non-autogenerated) `V` split `[0x0, 0x10)` is submitted while
`U` owns no split in the section: the call succeeds but — contrary to the
claim — the split table changes (the autogenerated split is inserted, not
dropped). -/
theorem c3_counterexample :
    resErr c3call1 = none ∧ resErr c3call2 = none ∧
    resState c3call2 ≠ resState c3call1 ∧
    coveredInfo (resState c3call2) 0 "U" 0x12 = true := by decide

/-- C1 (counterexample): five successful `add_split` calls starting from a
fresh two-section object leave unit `U` with two splits in section 1 (one
created by the cross-section rename step). A sixth call then fails with an
alignment conflict — one of the error kinds the claim covers — but the
object is NOT left as it was: the outer merge removed `U`'s split at
`0x100` before its recursive call failed. -/
theorem c1_counterexample :
    resErr trace1 = none ∧ resErr trace2 = none ∧ resErr trace3 = none ∧
    resErr trace4 = none ∧ resErr trace5 = none ∧
    resErr c1call6 = some (.alignmentConflict "U" 4 8) ∧
    resState c1call6 ≠ resState trace5 := by decide

/-- C6 (counterexample): in the same reachable state (after the five-call
trace), a successful `add_split` for `U` of `[0x108, 0x205)` merges `U`'s two
section-1 splits into `[0x100, 0x205)` and loses the previously covered
address `0x208` — coverage is not monotonic. -/
theorem c6_counterexample :
    resErr c6call6 = none ∧
    coveredInfo (resState trace5) 1 "U" 0x208 = true ∧
    coveredInfo (resState c6call6) 1 "U" 0x208 = false := by decide

/-- C7 (counterexample): section 0 holds the `U` split `[0x0, 0x10)` with
alignment 4; re-adding the identical (hence fully contained) range for `U`
with alignment 8 does not succeed as the claim states — it fails with an
alignment conflict, because alignment resolution precedes the containment
no-op check. -/
theorem c7_counterexample :
    resErr c7call1 = none ∧
    resErr c7call2 = some (.alignmentConflict "U" 8 4) := by decide

/-- C4 (counterexample): a relocation inserted at the unaligned address
`0x1001` lands at `0x1000`, and `contains` does NOT mask its argument:
`contains 0x1001` is false while `contains (0x1001 & !3) = contains 0x1000`
is true, so `contains a` does not behave like `contains (a & !3)`. -/
theorem c4_counterexample :
    ObjRelocations.insert ⟨[]⟩ 0x1001 cexReloc = .ok c4table ∧
    mask32 0x1001 = 0x1000 ∧
    c4table.contains 0x1001 = false ∧
    c4table.contains 0x1000 = true := by decide

/-- C5 (code bug): the merge path of `add_split` can fail to terminate. The
setup call gives `U` the open-ended split `[0x100, 0)` (end 0 is explicitly
allowed by the bounds check). Merging `U` `[0x0, 0x50)` then computes the
union `[0, max 0 0x50) = [0, 0x50)`, which does not reach the existing split
at `0x100`: the scan removes nothing and the recursive call repeats with
identical state and arguments, so the recursion never terminates — every
finite fuel is exhausted with the state unchanged. -/
theorem c5_nontermination :
    resErr c5setup = none ∧
    ∀ fuel, addSplit fuel c5state 0 0x0 c5split = .error (.fuelExhausted, c5state) := by
  constructor
  · decide
  · intro fuel
    induction fuel with
    | zero => rfl
    | succ n ih => exact ih

/-- C10 (confirmed): each relocation kind serializes to its short code and
deserializes back from both the short code and the historical verbose name;
any other string fails with an `unknown_variant` error listing exactly the
seven valid short codes. -/
theorem c10_kind_roundtrip :
    (∀ k, deserializeRelocKind (serializeRelocKind k) = .ok k) ∧
    (∀ k, deserializeRelocKind (verboseRelocKindName k) = .ok k) ∧
    (∀ s, s ∉ relocKindAllSpellings →
      deserializeRelocKind s = .error (.unknownVariant s relocKindValidCodes)) := by
  refine ⟨?_, ?_, ?_⟩
  · intro k; cases k <;> rfl
  · intro k; cases k <;> rfl
  · intro s hs
    simp only [relocKindAllSpellings, List.mem_cons, List.not_mem_nil, or_false,
      not_or] at hs
    obtain ⟨h1, h2, h3, h4, h5, h6, h7, h8, h9, h10, h11, h12, h13, h14⟩ := hs
    simp [deserializeRelocKind, h1, h2, h3, h4, h5, h6, h7, h8, h9, h10, h11,
      h12, h13, h14]

/-- C10 witness: the round-trip and failure facts at concrete inputs. -/
theorem c10_kind_roundtrip_witness :
    deserializeRelocKind (serializeRelocKind .PpcRel24) = .ok .PpcRel24 ∧
    deserializeRelocKind (verboseRelocKindName .PpcRel24) = .ok .PpcRel24 ∧
    deserializeRelocKind "bogus" = .error (.unknownVariant "bogus" relocKindValidCodes) :=
  ⟨c10_kind_roundtrip.1 .PpcRel24, c10_kind_roundtrip.2.1 .PpcRel24,
   c10_kind_roundtrip.2.2 "bogus" (by decide)⟩

/-- Unfolding `add_split`: an out-of-range section index fails immediately
with `InvalidSection`, unchanged state. -/
theorem addSplit_invalid_step (fuel : Nat) (o : ObjInfo) (i a : Nat) (s : ObjSplit)
    (hsec : o.sections[i]? = none) :
    addSplit (fuel + 1) o i a s = .error (.invalidSection i, o) := by
  simp only [addSplit, hsec]

/-- Unfolding `add_split`: a split whose end lies beyond the section fails
immediately with `SplitOutOfBounds`, unchanged state. -/
theorem addSplit_oob_step (fuel : Nat) (o : ObjInfo) (i a : Nat) (s : ObjSplit)
    (sec : ObjSection) (hsec : o.sections[i]? = some sec)
    (hb : ¬(s.endAddr = 0 ∨ s.endAddr ≤ (sec.address + sec.size) % 2 ^ 32)) :
    addSplit (fuel + 1) o i a s =
      .error (.splitOutOfBounds s.unit a s.endAddr (sec.address % 2 ^ 32)
        ((sec.address + sec.size) % 2 ^ 32), o) := by
  simp only [addSplit, hsec]
  rw [if_neg hb]

/-- Unfolding `add_split`: with no existing split for the unit, the split is
pushed directly at its address. -/
theorem addSplit_push_step (fuel : Nat) (o : ObjInfo) (i a : Nat) (s : ObjSplit)
    (sec : ObjSection) (hsec : o.sections[i]? = some sec)
    (hb : s.endAddr = 0 ∨ s.endAddr ≤ (sec.address + sec.size) % 2 ^ 32)
    (hfu : forUnit sec.splits s.unit = none) :
    addSplit (fuel + 1) o i a s =
      .ok { o with
            sections := o.sections.set i { sec with splits := pushSplit sec.splits a s } } := by
  simp only [addSplit, hsec]
  rw [if_pos hb]
  simp [hfu]

/-- Unfolding `add_split`: conflicting alignments on the merge path fail
immediately with `AlignmentConflict`, unchanged state. -/
theorem addSplit_align_err_step (fuel : Nat) (o : ObjInfo) (i a : Nat) (s : ObjSplit)
    (sec : ObjSection) (ea x y : Nat) (es : ObjSplit)
    (hsec : o.sections[i]? = some sec)
    (hb : s.endAddr = 0 ∨ s.endAddr ≤ (sec.address + sec.size) % 2 ^ 32)
    (hfu : forUnit sec.splits s.unit = some (ea, es))
    (hal : mergeAlignments s.align es.align = .error (x, y)) :
    addSplit (fuel + 1) o i a s = .error (.alignmentConflict s.unit x y, o) := by
  simp only [addSplit, hsec]
  rw [if_pos hb]
  simp only [hfu, hal]

/-- Unfolding `add_split`: differing common flags on the merge path fail with
`CommonFlagConflict`, unchanged state. -/
theorem addSplit_common_err_step (fuel : Nat) (o : ObjInfo) (i a : Nat) (s : ObjSplit)
    (sec : ObjSection) (ea : Nat) (es : ObjSplit) (al : Option Nat)
    (hsec : o.sections[i]? = some sec)
    (hb : s.endAddr = 0 ∨ s.endAddr ≤ (sec.address + sec.size) % 2 ^ 32)
    (hfu : forUnit sec.splits s.unit = some (ea, es))
    (hal : mergeAlignments s.align es.align = .ok al)
    (hc : ¬(s.common = es.common)) :
    addSplit (fuel + 1) o i a s =
      .error (.commonFlagConflict s.unit es.common s.common, o) := by
  simp only [addSplit, hsec]
  rw [if_pos hb]
  simp only [hfu, hal]
  rw [if_neg hc]

/-- Unfolding `add_split`: an incoming range whose union with the existing
split equals the existing range is a no-op success. -/
theorem addSplit_contained_step (fuel : Nat) (o : ObjInfo) (i a : Nat) (s : ObjSplit)
    (sec : ObjSection) (ea : Nat) (es : ObjSplit) (al : Option Nat)
    (hsec : o.sections[i]? = some sec)
    (hb : s.endAddr = 0 ∨ s.endAddr ≤ (sec.address + sec.size) % 2 ^ 32)
    (hfu : forUnit sec.splits s.unit = some (ea, es))
    (hal : mergeAlignments s.align es.align = .ok al)
    (hc : s.common = es.common)
    (hcont : min ea a ≥ ea ∧ max es.endAddr s.endAddr ≤ es.endAddr) :
    addSplit (fuel + 1) o i a s = .ok o := by
  simp only [addSplit, hsec]
  rw [if_pos hb]
  simp only [hfu, hal, hc, if_pos rfl]
  rw [if_pos hcont]
  simp only [if_true]

/-- Unfolding `add_split`: a scan that meets a non-autogenerated split while
the incoming split is autogenerated makes the whole call a no-op success. -/
theorem addSplit_drop_step (fuel : Nat) (o : ObjInfo) (i a : Nat) (s : ObjSplit)
    (sec : ObjSection) (ea : Nat) (es : ObjSplit) (al : Option Nat)
    (hsec : o.sections[i]? = some sec)
    (hb : s.endAddr = 0 ∨ s.endAddr ≤ (sec.address + sec.size) % 2 ^ 32)
    (hfu : forUnit sec.splits s.unit = some (ea, es))
    (hal : mergeAlignments s.align es.align = .ok al)
    (hc : s.common = es.common)
    (hnc : ¬(min ea a ≥ ea ∧ max es.endAddr s.endAddr ≤ es.endAddr))
    (hscan : scanOverlaps s (min ea a) (max es.endAddr s.endAddr)
        (forRange sec.splits (min ea a) (max es.endAddr s.endAddr)) = .silentDrop) :
    addSplit (fuel + 1) o i a s = .ok o := by
  simp only [addSplit, hsec]
  rw [if_pos hb]
  simp only [hfu, hal, hc, if_pos rfl]
  rw [if_neg hnc]
  simp only [hscan, if_true]

/-- Unfolding `add_split`: a scan conflict fails with `OverlappingSplit`,
unchanged state. -/
theorem addSplit_conflict_step (fuel : Nat) (o : ObjInfo) (i a : Nat) (s : ObjSplit)
    (sec : ObjSection) (ea : Nat) (es : ObjSplit) (al : Option Nat) (e : SplitError)
    (hsec : o.sections[i]? = some sec)
    (hb : s.endAddr = 0 ∨ s.endAddr ≤ (sec.address + sec.size) % 2 ^ 32)
    (hfu : forUnit sec.splits s.unit = some (ea, es))
    (hal : mergeAlignments s.align es.align = .ok al)
    (hc : s.common = es.common)
    (hnc : ¬(min ea a ≥ ea ∧ max es.endAddr s.endAddr ≤ es.endAddr))
    (hscan : scanOverlaps s (min ea a) (max es.endAddr s.endAddr)
        (forRange sec.splits (min ea a) (max es.endAddr s.endAddr)) = .conflict e) :
    addSplit (fuel + 1) o i a s = .error (e, o) := by
  simp only [addSplit, hsec]
  rw [if_pos hb]
  simp only [hfu, hal, hc, if_pos rfl]
  rw [if_neg hnc]
  simp only [hscan, if_true]

/-- Unfolding `add_split`: a passing scan removes the collected addresses,
renames the collected units in every section, and recurses with the merged
split. -/
theorem addSplit_merge_step (fuel : Nat) (o : ObjInfo) (i a : Nat) (s : ObjSplit)
    (sec : ObjSection) (ea : Nat) (es : ObjSplit) (al : Option Nat)
    (toRemove : List Nat) (toRename : List String)
    (hsec : o.sections[i]? = some sec)
    (hb : s.endAddr = 0 ∨ s.endAddr ≤ (sec.address + sec.size) % 2 ^ 32)
    (hfu : forUnit sec.splits s.unit = some (ea, es))
    (hal : mergeAlignments s.align es.align = .ok al)
    (hc : s.common = es.common)
    (hnc : ¬(min ea a ≥ ea ∧ max es.endAddr s.endAddr ≤ es.endAddr))
    (hscan : scanOverlaps s (min ea a) (max es.endAddr s.endAddr)
        (forRange sec.splits (min ea a) (max es.endAddr s.endAddr)) =
          .passed toRemove toRename) :
    addSplit (fuel + 1) o i a s =
      addSplit fuel
        { o with
          sections := (o.sections.set i
              { sec with splits := removeKeys toRemove sec.splits }).map
            (fun s2 => { s2 with splits := renameSplits toRename s.unit s2.splits }) }
        i (min ea a)
        { unit := s.unit, endAddr := max es.endAddr s.endAddr, align := al,
          common := s.common, autogenerated := s.autogenerated && es.autogenerated,
          skip := false, rename := none } := by
  simp only [addSplit, hsec]
  rw [if_pos hb]
  simp only [hfu, hal, hc, if_pos rfl]
  rw [if_neg hnc]
  simp only [hscan, if_true]

/-- Every error reported by the pre-mutation validation phase is returned by
`add_split` with the object exactly unchanged. -/
theorem addSplit_of_precheck (fuel : Nat) (o : ObjInfo) (i a : Nat) (s : ObjSplit)
    (e : SplitError) (h : addSplitPrecheck o i a s = some e) :
    addSplit (fuel + 1) o i a s = .error (e, o) := by
  cases hsec : o.sections[i]? with
  | none =>
    simp only [addSplitPrecheck, hsec, Option.some.injEq] at h
    rw [addSplit_invalid_step fuel o i a s hsec, h]
  | some sec =>
    by_cases hb : s.endAddr = 0 ∨ s.endAddr ≤ (sec.address + sec.size) % 2 ^ 32
    · cases hfu : forUnit sec.splits s.unit with
      | none =>
        simp only [addSplitPrecheck, hsec, hfu, if_pos hb] at h
        exact Option.noConfusion h
      | some p =>
        obtain ⟨ea, es⟩ := p
        cases hal : mergeAlignments s.align es.align with
        | error ab =>
          obtain ⟨x, y⟩ := ab
          simp only [addSplitPrecheck, hsec, hfu, hal, if_pos hb, Option.some.injEq] at h
          rw [addSplit_align_err_step fuel o i a s sec ea x y es hsec hb hfu hal, h]
        | ok al =>
          by_cases hc : s.common = es.common
          · by_cases hcont : min ea a ≥ ea ∧ max es.endAddr s.endAddr ≤ es.endAddr
            · simp only [addSplitPrecheck, hsec, hfu, hal, if_pos hb, hc, if_pos rfl,
                if_pos hcont, if_true] at h
              exact Option.noConfusion h
            · cases hscan : scanOverlaps s (min ea a) (max es.endAddr s.endAddr)
                  (forRange sec.splits (min ea a) (max es.endAddr s.endAddr)) with
              | silentDrop =>
                simp only [addSplitPrecheck, hsec, hfu, hal, if_pos hb, hc, if_pos rfl,
                  if_neg hcont, hscan, if_true] at h
                exact Option.noConfusion h
              | conflict e2 =>
                simp only [addSplitPrecheck, hsec, hfu, hal, if_pos hb, hc, if_pos rfl,
                  if_neg hcont, hscan, if_true, Option.some.injEq] at h
                rw [addSplit_conflict_step fuel o i a s sec ea es al e2 hsec hb hfu hal
                  hc hcont hscan, h]
              | passed toRemove toRename =>
                simp only [addSplitPrecheck, hsec, hfu, hal, if_pos hb, hc, if_pos rfl,
                  if_neg hcont, hscan, if_true] at h
                exact Option.noConfusion h
          · simp only [addSplitPrecheck, hsec, hfu, hal, if_pos hb, if_neg hc,
              Option.some.injEq] at h
            rw [addSplit_common_err_step fuel o i a s sec ea es al hsec hb hfu hal hc, h]
    · simp only [addSplitPrecheck, hsec, if_neg hb, Option.some.injEq] at h
      rw [addSplit_oob_step fuel o i a s sec hsec hb, h]

/-- Zero fuel reports exhaustion with the state unchanged. -/
theorem addSplit_zero (o : ObjInfo) (i a : Nat) (s : ObjSplit) :
    addSplit 0 o i a s = .error (.fuelExhausted, o) := rfl

/-- Setting index `i` of a list that has an entry at `i` makes `i` resolve to
the new entry. -/
theorem getElem?_set_self' {α : Type} (l : List α) (i : Nat) (x y : α)
    (h : l[i]? = some y) : (l.set i x)[i]? = some x := by
  induction l generalizing i with
  | nil => simp at h
  | cons hd tl ih =>
    cases i with
    | zero => simp [List.set]
    | succ n =>
      simp only [List.getElem?_cons_succ] at h
      simpa [List.set] using ih n h

/-- The freshly inserted key-value pair is a member of the insertion result. -/
theorem mem_insertA_self {α : Type} (k : Nat) (v : α) (l : List (Nat × α)) :
    (k, v) ∈ insertA k v l := by
  induction l with
  | nil => simp [insertA]
  | cons p rest ih =>
    obtain ⟨k', v'⟩ := p
    by_cases h1 : k < k'
    · simp [insertA, h1]
    · by_cases h2 : k = k'
      · simp [insertA, h1, h2]
      · simp only [insertA, if_neg h1, if_neg h2]
        exact List.mem_cons_of_mem _ ih

/-- Unfolding of `coveredBy` as an existence statement. -/
theorem coveredBy_iff (l : List (Nat × ObjSplit)) (u : String) (x : Nat) :
    coveredBy l u x = true ↔
      ∃ p ∈ l, p.2.unit = u ∧ p.1 ≤ x ∧ x < p.2.endAddr := by
  simp [coveredBy, List.any_eq_true, and_assoc]

/-- A member split covering `x` makes `coveredBy` true. -/
theorem coveredBy_of_mem (l : List (Nat × ObjSplit)) (u : String) (x k : Nat)
    (v : ObjSplit) (hm : (k, v) ∈ l) (hu : v.unit = u) (h1 : k ≤ x)
    (h2 : x < v.endAddr) : coveredBy l u x = true :=
  (coveredBy_iff l u x).mpr ⟨(k, v), hm, hu, h1, h2⟩

/-- `for_unit` finding nothing means no split of the table is attributed to
the unit. -/
theorem forUnit_none_iff (l : List (Nat × ObjSplit)) (u : String) :
    forUnit l u = none ↔ ∀ p ∈ l, p.2.unit ≠ u := by
  simp [forUnit, List.find?_eq_none]

/-- A split found by `for_unit` is a member of the table. -/
theorem forUnit_some_mem (l : List (Nat × ObjSplit)) (u : String)
    (q : Nat × ObjSplit) (h : forUnit l u = some q) : q ∈ l :=
  List.mem_of_find?_eq_some h

/-- A split found by `for_unit` is attributed to the requested unit. -/
theorem forUnit_some_unit (l : List (Nat × ObjSplit)) (u : String)
    (q : Nat × ObjSplit) (h : forUnit l u = some q) : q.2.unit = u := by
  have := List.find?_some h
  simpa using this

/-- A passing scan collects every scanned address for removal. -/
theorem scan_passed_toRemove (s : ObjSplit) (ns ne : Nat)
    (l : List (Nat × ObjSplit)) (R : List Nat) (T : List String)
    (h : scanOverlaps s ns ne l = .passed R T) : R = l.map Prod.fst := by
  induction l generalizing R T with
  | nil =>
    simp only [scanOverlaps, ScanResult.passed.injEq] at h
    simp [← h.1]
  | cons p rest ih =>
    obtain ⟨pa, ps⟩ := p
    simp only [scanOverlaps] at h
    by_cases h1 : s.autogenerated && !ps.autogenerated
    · rw [if_pos h1] at h; exact absurd h (by simp)
    · rw [if_neg h1] at h
      by_cases h2 : !(ps.autogenerated || ps.unit == s.unit)
      · rw [if_pos h2] at h; exact absurd h (by simp)
      · rw [if_neg h2] at h
        cases hrest : scanOverlaps s ns ne rest with
        | silentDrop => rw [hrest] at h; exact absurd h (by simp)
        | conflict e => rw [hrest] at h; exact absurd h (by simp)
        | passed R' T' =>
          rw [hrest] at h
          simp only [ScanResult.passed.injEq] at h
          obtain ⟨hR, hT⟩ := h
          simp [← hR, ih R' T' hrest]

/-- Every unit collected for renaming by a passing scan belongs to some
scanned split of a foreign unit. -/
theorem scan_passed_toRename (s : ObjSplit) (ns ne : Nat)
    (l : List (Nat × ObjSplit)) (R : List Nat) (T : List String)
    (h : scanOverlaps s ns ne l = .passed R T) :
    ∀ u ∈ T, ∃ p ∈ l, p.2.unit = u ∧ p.2.unit ≠ s.unit := by
  induction l generalizing R T with
  | nil =>
    simp only [scanOverlaps, ScanResult.passed.injEq] at h
    simp [← h.2]
  | cons p rest ih =>
    obtain ⟨pa, ps⟩ := p
    simp only [scanOverlaps] at h
    by_cases h1 : s.autogenerated && !ps.autogenerated
    · rw [if_pos h1] at h; exact absurd h (by simp)
    · rw [if_neg h1] at h
      by_cases h2 : !(ps.autogenerated || ps.unit == s.unit)
      · rw [if_pos h2] at h; exact absurd h (by simp)
      · rw [if_neg h2] at h
        cases hrest : scanOverlaps s ns ne rest with
        | silentDrop => rw [hrest] at h; exact absurd h (by simp)
        | conflict e => rw [hrest] at h; exact absurd h (by simp)
        | passed R' T' =>
          rw [hrest] at h
          simp only [ScanResult.passed.injEq] at h
          obtain ⟨hR, hT⟩ := h
          intro u hu
          by_cases hsame : ps.unit == s.unit
          · rw [← hT, if_pos hsame] at hu
            obtain ⟨q, hq, hq1, hq2⟩ := ih R' T' hrest u hu
            exact ⟨q, List.mem_cons_of_mem _ hq, hq1, hq2⟩
          · rw [← hT, if_neg hsame] at hu
            rcases List.mem_cons.mp hu with rfl | hu'
            · refine ⟨(pa, ps), List.mem_cons_self _ _, rfl, ?_⟩
              simpa using hsame
            · obtain ⟨q, hq, hq1, hq2⟩ := ih R' T' hrest u hu'
              exact ⟨q, List.mem_cons_of_mem _ hq, hq1, hq2⟩

/-- A non-autogenerated incoming split can never trigger the silent drop. -/
theorem scan_no_drop (s : ObjSplit) (ns ne : Nat) (l : List (Nat × ObjSplit))
    (hna : s.autogenerated = false) :
    scanOverlaps s ns ne l ≠ .silentDrop := by
  induction l with
  | nil => simp [scanOverlaps]
  | cons p rest ih =>
    obtain ⟨pa, ps⟩ := p
    simp only [scanOverlaps, hna, Bool.false_and, if_neg (by simp : ¬(false = true))]
    by_cases h2 : !(ps.autogenerated || ps.unit == s.unit)
    · rw [if_pos h2]; simp
    · rw [if_neg h2]
      cases hrest : scanOverlaps s ns ne rest with
      | silentDrop => exact absurd hrest ih
      | conflict e => simp
      | passed R T => simp

/-- With an autogenerated incoming split, the scan silently drops as soon as
any scanned split is not autogenerated. -/
theorem scan_drop_of_auto (s : ObjSplit) (ns ne : Nat) (l : List (Nat × ObjSplit))
    (hauto : s.autogenerated = true)
    (hex : (l.find? (fun p => !p.2.autogenerated)).isSome = true) :
    scanOverlaps s ns ne l = .silentDrop := by
  induction l with
  | nil => simp at hex
  | cons p rest ih =>
    obtain ⟨pa, ps⟩ := p
    by_cases hpa : ps.autogenerated
    · have hex' : (rest.find? (fun p => !p.2.autogenerated)).isSome = true := by
        simpa [List.find?, hpa] using hex
      have hrest := ih hex'
      simp [scanOverlaps, hauto, hpa, hrest]
    · have hpa' : ps.autogenerated = false := by simpa using hpa
      simp [scanOverlaps, hauto, hpa']

/-- With a non-autogenerated incoming split, the scan fails with
`OverlappingSplit` at the first scanned split that is neither autogenerated
nor owned by the incoming unit. -/
theorem scan_conflict_at_first (s : ObjSplit) (ns ne : Nat)
    (l : List (Nat × ObjSplit)) (q : Nat × ObjSplit)
    (hna : s.autogenerated = false)
    (hfind : l.find? (fun p => !p.2.autogenerated && !(p.2.unit == s.unit)) = some q) :
    scanOverlaps s ns ne l =
      .conflict (.overlappingSplit s.unit ns ne q.2.unit q.1 q.2.endAddr) := by
  induction l with
  | nil => simp at hfind
  | cons p rest ih =>
    obtain ⟨pa, ps⟩ := p
    by_cases hviol : (!ps.autogenerated && !(ps.unit == s.unit)) = true
    · have hq : q = (pa, ps) := by
        rw [List.find?_cons_of_pos _ (by exact hviol)] at hfind
        exact (Option.some.inj hfind).symm
      subst hq
      have h1 : ps.autogenerated = false ∧ ps.unit ≠ s.unit := by simpa using hviol
      simp [scanOverlaps, hna, h1.1, h1.2]
    · have hfind' : rest.find? (fun p => !p.2.autogenerated && !(p.2.unit == s.unit)) = some q := by
        rwa [List.find?_cons_of_neg _ (by exact hviol)] at hfind
      have hrest := ih hfind'
      have hviol' : ps.autogenerated = false → ps.unit = s.unit := by simpa using hviol
      by_cases hA : ps.autogenerated
      · simp [scanOverlaps, hna, hA, hrest]
      · have heq : ps.unit = s.unit := hviol' (by simpa using hA)
        simp [scanOverlaps, hna, hA, heq, hrest]

/-- Distinct-unit tables attribute a unit to at most one entry. -/
theorem unitsDistinct_inj (l : List (Nat × ObjSplit))
    (h : unitsDistinct l = true) (p q : Nat × ObjSplit) (hp : p ∈ l) (hq : q ∈ l)
    (hunit : p.2.unit = q.2.unit) : p = q := by
  induction l with
  | nil => simp at hp
  | cons r rest ih =>
    simp only [unitsDistinct, Bool.and_eq_true, List.all_eq_true] at h
    obtain ⟨hall, hrest⟩ := h
    rcases List.mem_cons.mp hp with rfl | hp' <;> rcases List.mem_cons.mp hq with rfl | hq'
    · rfl
    · have := hall q hq'
      simp only [Bool.not_eq_true', beq_eq_false_iff_ne, ne_eq] at this
      exact absurd hunit.symm this
    · have := hall p hp'
      simp only [Bool.not_eq_true', beq_eq_false_iff_ne, ne_eq] at this
      exact absurd hunit this
    · exact ih hrest hp' hq'

/-- Renaming is the identity on a table none of whose units are to be
renamed. -/
theorem renameSplits_id (T : List String) (u : String) (l : List (Nat × ObjSplit))
    (h : ∀ p ∈ l, T.contains p.2.unit = false) : renameSplits T u l = l := by
  induction l with
  | nil => rfl
  | cons p rest ih =>
    have hp := h p (List.mem_cons_self _ _)
    have hrest := ih (fun q hq => h q (List.mem_cons_of_mem _ hq))
    simp only [renameSplits] at hrest ⊢
    rw [List.map_cons, hrest]
    have hnot : ¬ p.2.unit ∈ T := by simpa using hp
    simp [hnot]

/-- Membership in the removal result. -/
theorem mem_removeKeys (R : List Nat) (l : List (Nat × ObjSplit))
    (p : Nat × ObjSplit) : p ∈ removeKeys R l ↔ p ∈ l ∧ R.contains p.1 = false := by
  simp [removeKeys, List.mem_filter]

/-- Membership in a `for_range` result. -/
theorem mem_forRange (l : List (Nat × ObjSplit)) (lo hi : Nat)
    (p : Nat × ObjSplit) : p ∈ forRange l lo hi ↔ p ∈ l ∧ splitIntersects lo hi p = true := by
  simp [forRange, List.mem_filter]

/-- C1 (amended): every error detected by the pre-mutation validation phase
of `add_split` — invalid section, out-of-bounds range, alignment conflict,
common-flag conflict, or an overlap conflict found by the current
invocation's scan — leaves the `ObjInfo` exactly unchanged. (As the
counterexample shows, an error raised by the recursive merge call instead
leaves the removals and renames already performed in place.) -/
theorem c1_amended (fuel : Nat) (o : ObjInfo) (i a : Nat) (s : ObjSplit)
    (e : SplitError) (h : addSplitPrecheck o i a s = some e) :
    addSplit (fuel + 1) o i a s = .error (e, o) :=
  addSplit_of_precheck fuel o i a s e h

/-- C1 witness: an out-of-bounds split is rejected with the object left
exactly as it was. -/
theorem c1_witness :
    addSplit 3 cexObj0 0 0x0 (mkSplit "U" 0x2000 none false) =
      .error (.splitOutOfBounds "U" 0x0 0x2000 0x0 0x1000, cexObj0) :=
  c1_amended 2 cexObj0 0 0x0 (mkSplit "U" 0x2000 none false)
    (.splitOutOfBounds "U" 0x0 0x2000 0x0 0x1000) (by decide)

/-- C2 (amended): the `OverlappingSplit` failure occurs on the merge path:
when the incoming (non-autogenerated) split's unit already has a split in
the section and the scan of the union range meets a split that is neither
autogenerated nor owned by the incoming unit, the call fails with an
overlap error naming both units and both ranges, and the object — including
the other unit's split — is left exactly unchanged. (When the incoming
unit has no split in the section, the direct-insert path performs no
overlap check and the call succeeds, as the counterexample shows.) -/
theorem c2_amended (fuel : Nat) (o : ObjInfo) (i a : Nat) (s : ObjSplit)
    (sec : ObjSection) (ea : Nat) (es : ObjSplit) (al : Option Nat)
    (q : Nat × ObjSplit)
    (hsec : o.sections[i]? = some sec)
    (hb : s.endAddr = 0 ∨ s.endAddr ≤ (sec.address + sec.size) % 2 ^ 32)
    (hfu : forUnit sec.splits s.unit = some (ea, es))
    (hal : mergeAlignments s.align es.align = .ok al)
    (hc : s.common = es.common)
    (hnc : ¬(min ea a ≥ ea ∧ max es.endAddr s.endAddr ≤ es.endAddr))
    (hna : s.autogenerated = false)
    (hfind : (forRange sec.splits (min ea a) (max es.endAddr s.endAddr)).find?
        (fun p => !p.2.autogenerated && !(p.2.unit == s.unit)) = some q) :
    addSplit (fuel + 1) o i a s =
      .error (.overlappingSplit s.unit (min ea a) (max es.endAddr s.endAddr)
        q.2.unit q.1 q.2.endAddr, o) :=
  addSplit_conflict_step fuel o i a s sec ea es al _ hsec hb hfu hal hc hnc
    (scan_conflict_at_first s (min ea a) (max es.endAddr s.endAddr) _ q hna hfind)

/-- C2 witness: `U2` (owning `[0x20, 0x28)`) submits `[0x8, 0x18)`, whose
union range overlaps `U1`'s confirmed `[0x0, 0x10)`: the call fails naming
both units and both ranges, and the object is unchanged. -/
theorem c2_witness :
    addSplit 1 c2wObj 0 0x8 (mkSplit "U2" 0x18 none false) =
      .error (.overlappingSplit "U2" 0x8 0x28 "U1" 0x0 0x10, c2wObj) :=
  c2_amended 0 c2wObj 0 0x8 (mkSplit "U2" 0x18 none false) c2wSec 0x20
    (mkSplit "U2" 0x28 none false) none (0x0, mkSplit "U1" 0x10 none false)
    (by decide) (by decide) (by decide) (by decide) (by decide) (by decide)
    (by decide) (by decide)

/-- C3 (amended): the silent drop of an autogenerated split occurs on the
merge path: when the incoming autogenerated split's unit already has a split
in the section and the scan of the union range meets any non-autogenerated
split, the call returns success and the object is exactly unchanged. (When
the incoming unit has no split in the section, the split is inserted without
any check, as the counterexample shows.) -/
theorem c3_amended (fuel : Nat) (o : ObjInfo) (i a : Nat) (s : ObjSplit)
    (sec : ObjSection) (ea : Nat) (es : ObjSplit) (al : Option Nat)
    (hsec : o.sections[i]? = some sec)
    (hb : s.endAddr = 0 ∨ s.endAddr ≤ (sec.address + sec.size) % 2 ^ 32)
    (hfu : forUnit sec.splits s.unit = some (ea, es))
    (hal : mergeAlignments s.align es.align = .ok al)
    (hc : s.common = es.common)
    (hnc : ¬(min ea a ≥ ea ∧ max es.endAddr s.endAddr ≤ es.endAddr))
    (hauto : s.autogenerated = true)
    (hex : ((forRange sec.splits (min ea a) (max es.endAddr s.endAddr)).find?
        (fun p => !p.2.autogenerated)).isSome = true) :
    addSplit (fuel + 1) o i a s = .ok o :=
  addSplit_drop_step fuel o i a s sec ea es al hsec hb hfu hal hc hnc
    (scan_drop_of_auto s (min ea a) (max es.endAddr s.endAddr) _ hauto hex)

/-- C3 witness: autogenerated `U` (owning the autogenerated `[0x0, 0x8)`)
submits `[0x8, 0x18)`, whose union range overlaps `V`'s confirmed
`[0x10, 0x20)`: the call succeeds and the object is exactly unchanged. -/
theorem c3_witness :
    addSplit 1 c3wObj 0 0x8 (mkSplit "U" 0x18 none true) = .ok c3wObj :=
  c3_amended 0 c3wObj 0 0x8 (mkSplit "U" 0x18 none true) c3wSec 0x0
    (mkSplit "U" 0x8 none true) none
    (by decide) (by decide) (by decide) (by decide) (by decide) (by decide)
    (by decide) (by decide)

/-- C7 (amended): re-adding a split identical to, or fully contained in, an
existing split of the same unit is a no-op success, provided the two splits'
alignments do not conflict (not both set to different values), their common
flags agree, and the incoming range passes the section-bounds validation.
Without the alignment/common proviso the call fails instead, as the
counterexample shows. -/
theorem c7_amended (fuel : Nat) (o : ObjInfo) (i a : Nat) (s : ObjSplit)
    (sec : ObjSection) (ea : Nat) (es : ObjSplit)
    (hsec : o.sections[i]? = some sec)
    (hb : s.endAddr = 0 ∨ s.endAddr ≤ (sec.address + sec.size) % 2 ^ 32)
    (hfu : forUnit sec.splits s.unit = some (ea, es))
    (halign : s.align = es.align ∨ s.align = none ∨ es.align = none)
    (hc : s.common = es.common)
    (hcont : ea ≤ a ∧ max es.endAddr s.endAddr ≤ es.endAddr) :
    addSplit (fuel + 1) o i a s = .ok o := by
  have hal : ∃ al, mergeAlignments s.align es.align = .ok al := by
    rcases halign with h | h | h
    · rw [h]
      cases es.align with
      | none => exact ⟨none, rfl⟩
      | some b => exact ⟨some b, by simp [mergeAlignments]⟩
    · rw [h]
      cases es.align with
      | none => exact ⟨none, rfl⟩
      | some b => exact ⟨some b, rfl⟩
    · rw [h]
      cases s.align with
      | none => exact ⟨none, rfl⟩
      | some b => exact ⟨some b, rfl⟩
  obtain ⟨al, hal⟩ := hal
  exact addSplit_contained_step fuel o i a s sec ea es al hsec hb hfu hal hc
    ⟨le_min (le_refl ea) hcont.1, hcont.2⟩

/-- C7 witness: `U` owns `[0x0, 0x10)` with alignment 4; re-adding the
contained `[0x4, 0x10)` with alignment unset succeeds and leaves the object
exactly unchanged. -/
theorem c7_witness :
    addSplit 1 c7wObj 0 0x4 (mkSplit "U" 0x10 none false) = .ok c7wObj :=
  c7_amended 0 c7wObj 0 0x4 (mkSplit "U" 0x10 none false) c7wSec 0x0
    (mkSplit "U" 0x10 (some 4) false)
    (by decide) (by decide) (by decide) (by decide) (by decide) (by decide)

/-- C4 (amended): `insert` (and `new`, which uses the same masked entry
logic) masks the address to the lower 4-byte boundary before storing, so
`insert a` and `insert (a & !3)` are the same operation; but `at`, `at_mut`,
`contains` and `replace` use the address exactly as given: after a
successful insert at an unaligned `a` the entry is visible at `a & !3` while
lookups at `a` itself are unaffected, and `replace` stores at the raw
address. -/
theorem c4_amended (m m2 : ObjRelocations) (a : Nat) (r : ObjReloc)
    (hin : m.insert a r = .ok m2) :
    m.insert a r = m.insert (mask32 a) r ∧
    m2.contains (mask32 a) = true ∧
    (mask32 a ≠ a → m2.rel_at a = m.rel_at a) ∧
    (m.replace a r).rel_at a = some r := by
  simp only [ObjRelocations.insert] at hin
  cases hl : lookupA (mask32 a) m.relocations with
  | some e =>
    simp only [hl] at hin
    exact absurd hin (by simp)
  | none =>
    simp only [hl] at hin
    injection hin with h
    refine ⟨by simp [ObjRelocations.insert, mask32_idem], ?_, ?_, ?_⟩
    · rw [← h]
      show (lookupA (mask32 a) (insertA (mask32 a) r m.relocations)).isSome = true
      rw [lookupA_insertA_self]
      rfl
    · intro hne
      rw [← h]
      show lookupA a (insertA (mask32 a) r m.relocations) = lookupA a m.relocations
      exact lookupA_insertA_ne (mask32 a) a r m.relocations (fun hh => hne hh.symm)
    · show lookupA a (insertA a r m.relocations) = some r
      exact lookupA_insertA_self a r m.relocations

/-- C4 witness: inserting at the unaligned `0x1001` makes the entry visible
at `0x1000` but not at `0x1001`, and `replace` at `0x1001` stores at
`0x1001` itself. -/
theorem c4_witness :
    ObjRelocations.insert ⟨[]⟩ 0x1001 cexReloc = ObjRelocations.insert ⟨[]⟩ (mask32 0x1001) cexReloc ∧
    c4table.contains (mask32 0x1001) = true ∧
    (mask32 0x1001 ≠ 0x1001 → c4table.rel_at 0x1001 = ObjRelocations.rel_at ⟨[]⟩ 0x1001) ∧
    (ObjRelocations.replace ⟨[]⟩ 0x1001 cexReloc).rel_at 0x1001 = some cexReloc :=
  c4_amended ⟨[]⟩ c4table 0x1001 cexReloc (by decide)

/-- C9 (confirmed): each of the seven reserved linker names captures the
symbol's address truncated to 32 bits into its aggregate field
(conjuncts 1-7); a symbol whose name differs from a reserved name leaves
that field unchanged — in particular a non-reserved name leaves all seven
unchanged (conjuncts 8-14); and a later `add_symbol` with the same reserved
name overwrites the field, last-write-wins (conjunct 15, stated for
`_SDA_BASE_`, the others being symmetric instances of conjuncts 1-7). -/
theorem c9_reserved_capture (o : ObjInfo) (s : ObjSymbol) (replace : Bool) :
    (s.name = "_SDA_BASE_" → (add_symbol o s replace).1.sda_base = some (s.address % 2 ^ 32)) ∧
    (s.name = "_SDA2_BASE_" → (add_symbol o s replace).1.sda2_base = some (s.address % 2 ^ 32)) ∧
    (s.name = "_stack_addr" → (add_symbol o s replace).1.stack_address = some (s.address % 2 ^ 32)) ∧
    (s.name = "_stack_end" → (add_symbol o s replace).1.stack_end = some (s.address % 2 ^ 32)) ∧
    (s.name = "_db_stack_addr" → (add_symbol o s replace).1.db_stack_addr = some (s.address % 2 ^ 32)) ∧
    (s.name = "__ArenaLo" → (add_symbol o s replace).1.arena_lo = some (s.address % 2 ^ 32)) ∧
    (s.name = "__ArenaHi" → (add_symbol o s replace).1.arena_hi = some (s.address % 2 ^ 32)) ∧
    (s.name ≠ "_SDA_BASE_" → (add_symbol o s replace).1.sda_base = o.sda_base) ∧
    (s.name ≠ "_SDA2_BASE_" → (add_symbol o s replace).1.sda2_base = o.sda2_base) ∧
    (s.name ≠ "_stack_addr" → (add_symbol o s replace).1.stack_address = o.stack_address) ∧
    (s.name ≠ "_stack_end" → (add_symbol o s replace).1.stack_end = o.stack_end) ∧
    (s.name ≠ "_db_stack_addr" → (add_symbol o s replace).1.db_stack_addr = o.db_stack_addr) ∧
    (s.name ≠ "__ArenaLo" → (add_symbol o s replace).1.arena_lo = o.arena_lo) ∧
    (s.name ≠ "__ArenaHi" → (add_symbol o s replace).1.arena_hi = o.arena_hi) ∧
    (∀ (s2 : ObjSymbol) (r2 : Bool), s2.name = s.name → s.name = "_SDA_BASE_" →
      (add_symbol (add_symbol o s replace).1 s2 r2).1.sda_base = some (s2.address % 2 ^ 32)) := by
  refine ⟨?_, ?_, ?_, ?_, ?_, ?_, ?_, ?_, ?_, ?_, ?_, ?_, ?_, ?_, ?_⟩
  · intro h; simp [add_symbol, symbolsAdd, h]
  · intro h; simp [add_symbol, symbolsAdd, h]
  · intro h; simp [add_symbol, symbolsAdd, h]
  · intro h; simp [add_symbol, symbolsAdd, h]
  · intro h; simp [add_symbol, symbolsAdd, h]
  · intro h; simp [add_symbol, symbolsAdd, h]
  · intro h; simp [add_symbol, symbolsAdd, h]
  · intro h; simp only [add_symbol, symbolsAdd]; split_ifs <;> simp_all
  · intro h; simp only [add_symbol, symbolsAdd]; split_ifs <;> simp_all
  · intro h; simp only [add_symbol, symbolsAdd]; split_ifs <;> simp_all
  · intro h; simp only [add_symbol, symbolsAdd]; split_ifs <;> simp_all
  · intro h; simp only [add_symbol, symbolsAdd]; split_ifs <;> simp_all
  · intro h; simp only [add_symbol, symbolsAdd]; split_ifs <;> simp_all
  · intro h; simp only [add_symbol, symbolsAdd]; split_ifs <;> simp_all
  · intro s2 r2 h2 h
    simp [add_symbol, symbolsAdd, h2, h]

/-- C9 witness: `_SDA_BASE_` at the 64-bit address `2^32 + 5` sets
`sda_base` to the truncated 5; a later `_SDA_BASE_` at 7 overwrites it; a
non-reserved symbol leaves the fields untouched. -/
theorem c9_reserved_capture_witness :
    (add_symbol cexObj0 c9sym1 true).1.sda_base = some 5 ∧
    (add_symbol (add_symbol cexObj0 c9sym1 true).1 c9sym2 false).1.sda_base = some 7 ∧
    (add_symbol cexObj0 c9sym3 true).1.sda_base = none ∧
    (add_symbol cexObj0 c9sym3 true).1.arena_hi = none := by
  refine ⟨(c9_reserved_capture cexObj0 c9sym1 true).1 rfl, ?_, ?_, ?_⟩
  · exact (c9_reserved_capture cexObj0 c9sym1 true).2.2.2.2.2.2.2.2.2.2.2.2.2.2
      c9sym2 false rfl rfl
  · exact (c9_reserved_capture cexObj0 c9sym3 true).2.2.2.2.2.2.2.1 (by decide)
  · exact (c9_reserved_capture cexObj0 c9sym3 true).2.2.2.2.2.2.2.2.2.2.2.2.2.1 (by decide)

/-- C6 (amended): after a successful `add_split` of a non-autogenerated
split for unit U, in a section whose split table is well-formed (each split
has a nonzero end above its start) and attributes each unit to at most one
split (always the case unless a previous cross-section rename created
duplicates), the set of addresses attributed to U in that section is a
superset of both U's prior coverage and the submitted range. (Without the
at-most-one-split proviso a merge can truncate coverage, as the
counterexample shows; an autogenerated submission can be silently dropped,
covering nothing new.) -/
theorem c6_amended (fuel : Nat) (o o2 : ObjInfo) (i a : Nat) (s : ObjSplit)
    (sec : ObjSection)
    (hsec : o.sections[i]? = some sec)
    (hWF : splitsWF sec.splits = true)
    (hU : unitsDistinct sec.splits = true)
    (hna : s.autogenerated = false)
    (hok : addSplit fuel o i a s = .ok o2) :
    ∀ x, (coveredBy sec.splits s.unit x = true ∨ (a ≤ x ∧ x < s.endAddr)) →
      coveredInfo o2 i s.unit x = true := by
  cases fuel with
  | zero => rw [addSplit_zero] at hok; exact absurd hok (by simp)
  | succ fuel =>
  by_cases hb : s.endAddr = 0 ∨ s.endAddr ≤ (sec.address + sec.size) % 2 ^ 32
  case neg =>
    rw [addSplit_oob_step fuel o i a s sec hsec hb] at hok
    exact absurd hok (by simp)
  case pos =>
  cases hfu : forUnit sec.splits s.unit with
  | none =>
    rw [addSplit_push_step fuel o i a s sec hsec hb hfu] at hok
    injection hok with h2
    intro x hx
    rcases hx with hcov | ⟨hax, hxe⟩
    · rw [coveredBy_iff] at hcov
      obtain ⟨p, hp, hpu, _, _⟩ := hcov
      exact absurd hpu ((forUnit_none_iff sec.splits s.unit).mp hfu p hp)
    · rw [← h2]
      have hgi : (o.sections.set i { sec with splits := pushSplit sec.splits a s })[i]? =
          some { sec with splits := pushSplit sec.splits a s } :=
        getElem?_set_self' o.sections i _ sec hsec
      simp only [coveredInfo, hgi]
      exact coveredBy_of_mem _ _ _ a s (mem_insertA_self a s sec.splits) rfl hax hxe
  | some p =>
    obtain ⟨ea, es⟩ := p
    have hesu : es.unit = s.unit := forUnit_some_unit _ _ _ hfu
    have hmem : (ea, es) ∈ sec.splits := forUnit_some_mem _ _ _ hfu
    have hWF' : ∀ q ∈ sec.splits, q.1 < q.2.endAddr := by
      simpa [splitsWF, List.all_eq_true] using hWF
    have heaes : ea < es.endAddr := hWF' _ hmem
    cases hal : mergeAlignments s.align es.align with
    | error ab =>
      obtain ⟨x1, y1⟩ := ab
      rw [addSplit_align_err_step fuel o i a s sec ea x1 y1 es hsec hb hfu hal] at hok
      exact absurd hok (by simp)
    | ok al =>
      by_cases hc : s.common = es.common
      case neg =>
        rw [addSplit_common_err_step fuel o i a s sec ea es al hsec hb hfu hal hc] at hok
        exact absurd hok (by simp)
      case pos =>
      by_cases hcont : min ea a ≥ ea ∧ max es.endAddr s.endAddr ≤ es.endAddr
      · rw [addSplit_contained_step fuel o i a s sec ea es al hsec hb hfu hal hc hcont] at hok
        injection hok with h2
        intro x hx
        rw [← h2]
        simp only [coveredInfo, hsec]
        rcases hx with hcov | ⟨hax, hxe⟩
        · exact hcov
        · have h1 : ea ≤ a := le_trans hcont.1 (min_le_right ea a)
          have h2' : s.endAddr ≤ es.endAddr :=
            le_trans (le_max_right es.endAddr s.endAddr) hcont.2
          exact coveredBy_of_mem _ _ _ ea es hmem hesu (le_trans h1 hax)
            (lt_of_lt_of_le hxe h2')
      · cases hscan : scanOverlaps s (min ea a) (max es.endAddr s.endAddr)
            (forRange sec.splits (min ea a) (max es.endAddr s.endAddr)) with
        | silentDrop => exact absurd hscan (scan_no_drop s _ _ _ hna)
        | conflict e =>
          rw [addSplit_conflict_step fuel o i a s sec ea es al e hsec hb hfu hal hc
            hcont hscan] at hok
          exact absurd hok (by simp)
        | passed R T =>
          rw [addSplit_merge_step fuel o i a s sec ea es al R T hsec hb hfu hal hc
            hcont hscan] at hok
          have hR : R = (forRange sec.splits (min ea a) (max es.endAddr s.endAddr)).map
              Prod.fst := scan_passed_toRemove _ _ _ _ _ _ hscan
          have hT := scan_passed_toRename _ _ _ _ _ _ hscan
          have hmemR : ∀ q ∈ forRange sec.splits (min ea a) (max es.endAddr s.endAddr),
              R.contains q.1 = true := by
            intro q hq
            rw [hR]
            exact List.elem_iff.mpr (List.mem_map_of_mem Prod.fst hq)
          have hinrange : (ea, es) ∈
              forRange sec.splits (min ea a) (max es.endAddr s.endAddr) := by
            rw [mem_forRange]
            refine ⟨hmem, ?_⟩
            have c1 : ea < max es.endAddr s.endAddr :=
              lt_of_lt_of_le heaes (le_max_left _ _)
            have c2 : min ea a < es.endAddr := lt_of_le_of_lt (min_le_left ea a) heaes
            simp [splitIntersects, c1, c2]
          have hkeepT : ∀ p ∈ removeKeys R sec.splits, T.contains p.2.unit = false := by
            intro p hp
            rw [mem_removeKeys] at hp
            obtain ⟨hpl, hpR⟩ := hp
            by_contra hcontra
            have ht : T.contains p.2.unit = true := by
              cases h' : T.contains p.2.unit with
              | false => exact absurd h' hcontra
              | true => rfl
            have hTc : p.2.unit ∈ T := List.elem_iff.mp ht
            obtain ⟨q, hq, hqu, _⟩ := hT _ hTc
            have hqsec : q ∈ sec.splits := ((mem_forRange _ _ _ q).mp hq).1
            have hpq : p = q := unitsDistinct_inj sec.splits hU p q hpl hqsec (by rw [hqu])
            rw [hpq] at hpR
            rw [hmemR q hq] at hpR
            exact absurd hpR (by simp)
          have hfu2 : forUnit (removeKeys R sec.splits) s.unit = none := by
            rw [forUnit_none_iff]
            intro p hp
            rw [mem_removeKeys] at hp
            obtain ⟨hpl, hpR⟩ := hp
            intro hpu
            have hpq : p = (ea, es) :=
              unitsDistinct_inj sec.splits hU p (ea, es) hpl hmem (by rw [hpu, hesu])
            rw [hpq] at hpR
            rw [hmemR _ hinrange] at hpR
            exact absurd hpR (by simp)
          have hren : renameSplits T s.unit (removeKeys R sec.splits) =
              removeKeys R sec.splits := renameSplits_id T s.unit _ hkeepT
          have hfsec : ({ name := sec.name, kind := sec.kind, address := sec.address,
                          size := sec.size,
                          splits := renameSplits T s.unit (removeKeys R sec.splits),
                          relocations := sec.relocations } : ObjSection) =
              { sec with splits := removeKeys R sec.splits } := by
            rw [hren]
          have hsec3 : ({ o with
              sections := (o.sections.set i
                  { sec with splits := removeKeys R sec.splits }).map
                (fun s2 => { s2 with splits := renameSplits T s.unit s2.splits }) } :
              ObjInfo).sections[i]? =
              some { sec with splits := removeKeys R sec.splits } := by
            show ((o.sections.set i { sec with splits := removeKeys R sec.splits }).map
              (fun s2 => { s2 with splits := renameSplits T s.unit s2.splits }))[i]? = _
            rw [List.getElem?_map,
              getElem?_set_self' o.sections i _ sec hsec]
            show some _ = _
            exact congrArg some hfsec
          cases fuel with
          | zero => rw [addSplit_zero] at hok; exact absurd hok (by simp)
          | succ g =>
            by_cases hb2 : max es.endAddr s.endAddr = 0 ∨
                max es.endAddr s.endAddr ≤ (sec.address + sec.size) % 2 ^ 32
            case neg =>
              rw [addSplit_oob_step g _ i (min ea a)
                { unit := s.unit, endAddr := max es.endAddr s.endAddr, align := al,
                  common := s.common, autogenerated := s.autogenerated && es.autogenerated,
                  skip := false, rename := none }
                { sec with splits := removeKeys R sec.splits } hsec3 hb2] at hok
              exact absurd hok (by simp)
            case pos =>
              rw [addSplit_push_step g _ i (min ea a)
                { unit := s.unit, endAddr := max es.endAddr s.endAddr, align := al,
                  common := s.common, autogenerated := s.autogenerated && es.autogenerated,
                  skip := false, rename := none }
                { sec with splits := removeKeys R sec.splits } hsec3 hb2 hfu2] at hok
              injection hok with h2
              intro x hx
              have hxb : min ea a ≤ x ∧ x < max es.endAddr s.endAddr := by
                rcases hx with hcov | ⟨hax, hxe⟩
                · rw [coveredBy_iff] at hcov
                  obtain ⟨p, hp, hpu, hp1, hp2⟩ := hcov
                  have hpq : p = (ea, es) :=
                    unitsDistinct_inj sec.splits hU p (ea, es) hp hmem (by rw [hpu, hesu])
                  rw [hpq] at hp1 hp2
                  exact ⟨le_trans (min_le_left ea a) hp1,
                    lt_of_lt_of_le hp2 (le_max_left _ _)⟩
                · exact ⟨le_trans (min_le_right ea a) hax,
                    lt_of_lt_of_le hxe (le_max_right es.endAddr s.endAddr)⟩
              rw [← h2]
              have hgi := getElem?_set_self' (α := ObjSection) _ i
                { name := sec.name, kind := sec.kind, address := sec.address,
                  size := sec.size,
                  splits := pushSplit (removeKeys R sec.splits) (min ea a)
                    { unit := s.unit, endAddr := max es.endAddr s.endAddr, align := al,
                      common := s.common,
                      autogenerated := s.autogenerated && es.autogenerated,
                      skip := false, rename := none },
                  relocations := sec.relocations }
                { sec with splits := removeKeys R sec.splits } hsec3
              simp only [coveredInfo, hgi]
              exact coveredBy_of_mem _ _ _ (min ea a) _
                (mem_insertA_self _ _ _) rfl hxb.1 hxb.2

/-- C6 witness: `U1` owns `[0x0, 0x10)`; submitting `[0x10, 0x18)` succeeds
and the merged coverage includes the new address `0x14`. -/
theorem c6_witness :
    coveredInfo (resState (addSplit 2 c2wObj 0 0x10 (mkSplit "U1" 0x18 none false)))
      0 "U1" 0x14 = true :=
  c6_amended 2 c2wObj
    (resState (addSplit 2 c2wObj 0 0x10 (mkSplit "U1" 0x18 none false)))
    0 0x10 (mkSplit "U1" 0x18 none false) c2wSec
    (by decide) (by decide) (by decide) (by decide) (by decide)
    0x14 (Or.inr (by decide))

/-- C8 (confirmed): the field resolution of `add_split`'s merge path.
Conjunct 1: both alignments set and different fails with
`AlignmentConflict` reporting both values, state unchanged. Conjunct 2:
with compatible alignments but differing common flags the call fails with
`CommonFlagConflict`, state unchanged (the common check follows the
alignment check). Conjunct 3: on the mutating merge path the split handed
to the recursive insertion — found at the union start in the final state —
carries the resolved alignment, the incoming common flag, the AND of the
two autogenerated flags, a cleared skip flag and no rename hint.
Conjunct 4: the alignment resolution takes the one specified side, the
common value of both, or stays unset. -/
theorem c8_merge_fields (fuel : Nat) (o : ObjInfo) (i a : Nat) (s : ObjSplit)
    (sec : ObjSection) (ea : Nat) (es : ObjSplit)
    (hsec : o.sections[i]? = some sec)
    (hb : s.endAddr = 0 ∨ s.endAddr ≤ (sec.address + sec.size) % 2 ^ 32)
    (hfu : forUnit sec.splits s.unit = some (ea, es)) :
    (∀ va vb, s.align = some va → es.align = some vb → va ≠ vb →
      addSplit (fuel + 1) o i a s = .error (.alignmentConflict s.unit va vb, o)) ∧
    (∀ al, mergeAlignments s.align es.align = .ok al → s.common ≠ es.common →
      addSplit (fuel + 1) o i a s =
        .error (.commonFlagConflict s.unit es.common s.common, o)) ∧
    (∀ al R T o2, mergeAlignments s.align es.align = .ok al → s.common = es.common →
      ¬(min ea a ≥ ea ∧ max es.endAddr s.endAddr ≤ es.endAddr) →
      scanOverlaps s (min ea a) (max es.endAddr s.endAddr)
        (forRange sec.splits (min ea a) (max es.endAddr s.endAddr)) = .passed R T →
      forUnit (renameSplits T s.unit (removeKeys R sec.splits)) s.unit = none →
      (max es.endAddr s.endAddr = 0 ∨
        max es.endAddr s.endAddr ≤ (sec.address + sec.size) % 2 ^ 32) →
      addSplit (fuel + 2) o i a s = .ok o2 →
      sectionSplitAt o2 i (min ea a) = some
        { unit := s.unit, endAddr := max es.endAddr s.endAddr, align := al,
          common := s.common, autogenerated := s.autogenerated && es.autogenerated,
          skip := false, rename := none }) ∧
    (∀ v, mergeAlignments (some v) none = .ok (some v) ∧
      mergeAlignments none (some v) = .ok (some v) ∧
      mergeAlignments none none = .ok none ∧
      mergeAlignments (some v) (some v) = .ok (some v)) := by
  refine ⟨?_, ?_, ?_, ?_⟩
  · intro va vb hsa hsb hne
    have hal : mergeAlignments s.align es.align = .error (va, vb) := by
      rw [hsa, hsb]
      simp [mergeAlignments, hne]
    exact addSplit_align_err_step fuel o i a s sec ea va vb es hsec hb hfu hal
  · intro al hal hcne
    exact addSplit_common_err_step fuel o i a s sec ea es al hsec hb hfu hal hcne
  · intro al R T o2 hal hc hnc hscan hfu3 hb2 hok
    rw [show fuel + 2 = (fuel + 1) + 1 from rfl] at hok
    rw [addSplit_merge_step (fuel + 1) o i a s sec ea es al R T hsec hb hfu hal hc
      hnc hscan] at hok
    have hsec3 : ({ o with
        sections := (o.sections.set i
            { sec with splits := removeKeys R sec.splits }).map
          (fun s2 => { s2 with splits := renameSplits T s.unit s2.splits }) } :
        ObjInfo).sections[i]? =
        some { name := sec.name, kind := sec.kind, address := sec.address,
               size := sec.size,
               splits := renameSplits T s.unit (removeKeys R sec.splits),
               relocations := sec.relocations } := by
      show ((o.sections.set i { sec with splits := removeKeys R sec.splits }).map
        (fun s2 => { s2 with splits := renameSplits T s.unit s2.splits }))[i]? = _
      rw [List.getElem?_map, getElem?_set_self' o.sections i _ sec hsec]
      rfl
    rw [addSplit_push_step fuel _ i (min ea a)
      { unit := s.unit, endAddr := max es.endAddr s.endAddr, align := al,
        common := s.common, autogenerated := s.autogenerated && es.autogenerated,
        skip := false, rename := none }
      { name := sec.name, kind := sec.kind, address := sec.address,
        size := sec.size,
        splits := renameSplits T s.unit (removeKeys R sec.splits),
        relocations := sec.relocations } hsec3 hb2 hfu3] at hok
    injection hok with h2
    rw [← h2]
    simp only [sectionSplitAt]
    rw [getElem?_set_self' _ i _ _ hsec3]
    exact lookupA_insertA_self _ _ _
  · intro v
    exact ⟨rfl, rfl, rfl, by simp [mergeAlignments]⟩

/-- C8 witness: at concrete inputs — alignments 8 vs 4 conflict (reporting
both), common flags `true` vs `false` conflict, a mutating merge stores the
merged split with the resolved alignment and AND-ed autogenerated flag, and
the alignment resolution table at value 4. -/
theorem c8_merge_fields_witness :
    addSplit 1 c7wObj 0 0x0 (mkSplit "U" 0x10 (some 8) false) =
      .error (.alignmentConflict "U" 8 4, c7wObj) ∧
    addSplit 1 c7wObj 0 0x0 ⟨"U", 0x10, none, true, false, false, none⟩ =
      .error (.commonFlagConflict "U" false true, c7wObj) ∧
    sectionSplitAt (resState (addSplit 2 c2wObj 0 0x10 (mkSplit "U1" 0x18 none false)))
      0 0x0 = some ⟨"U1", 0x18, none, false, false, false, none⟩ ∧
    mergeAlignments (some 4) none = .ok (some 4) := by
  refine ⟨?_, ?_, ?_, ?_⟩
  · exact (c8_merge_fields 0 c7wObj 0 0x0 (mkSplit "U" 0x10 (some 8) false) c7wSec 0x0
      (mkSplit "U" 0x10 (some 4) false) (by decide) (by decide) (by decide)).1
      8 4 rfl rfl (by decide)
  · exact (c8_merge_fields 0 c7wObj 0 0x0 ⟨"U", 0x10, none, true, false, false, none⟩
      c7wSec 0x0 (mkSplit "U" 0x10 (some 4) false) (by decide) (by decide)
      (by decide)).2.1 (some 4) (by decide) (by decide)
  · exact (c8_merge_fields 0 c2wObj 0 0x10 (mkSplit "U1" 0x18 none false) c2wSec 0x0
      (mkSplit "U1" 0x10 none false) (by decide) (by decide) (by decide)).2.2.1
      none [0x0] []
      (resState (addSplit 2 c2wObj 0 0x10 (mkSplit "U1" 0x18 none false)))
      (by decide) (by decide) (by decide) (by decide) (by decide) (by decide) (by decide)
  · exact ((c8_merge_fields 0 c7wObj 0 0x0 (mkSplit "U" 0x10 (some 8) false) c7wSec 0x0
      (mkSplit "U" 0x10 (some 4) false) (by decide) (by decide) (by decide)).2.2.2 4).1
